import Mathlib

/-!
Verification of the dataset loader (`src/loader.py`, class `Data`).

The loader is embedded shallowly:

* paths, URLs and file contents are lists of characters (`Str`);
* the filesystem is an association list from paths to entries (regular
  file, directory, or zip archive with its members);
* the two remote-download collaborators (`KaggleApi.competition_download_file`,
  `KaggleApi.dataset_download_file`) are parameters (`Collab`): the
  competition one can raise (modelled as `Option Nat`, `some e` being an
  exception carrying identity `e`), the dataset one returns a boolean;
* `pandas.read_csv` is modelled as a simple line/field splitter `parse`;
  its exact parsing is irrelevant to every claim, only which function is
  applied and with which delimiter matters;
* Python exceptions become values of the inductive `Err`;
* side effects that the claims talk about (directory creation, collaborator
  invocations, authentication, handing a path to the format dispatcher) are
  recorded in an explicit trace of `Call`s.

Function names follow the source: `load` (format dispatcher,
`Data.load`), `kaggle_load` (`Data.kaggle_load`), `validate_local_path`
(`Data.validate_local_path`), `init` (`Data.__init__`).
-/

/-- Strings of the model: lists of characters. -/
abbrev Str := List Char

/-- Literal coercion from Lean string literals. -/
def str (s : String) : Str := s.data

/-- Rightmost index of `c` in `s`, if any (helper for `str.rfind` style
    computations used by `pathlib`). -/
def lastIdxAux (c : Char) : Str → Nat → Option Nat → Option Nat
  | [], _, acc => acc
  | x :: xs, i, acc => lastIdxAux c xs (i + 1) (if x = c then some i else acc)

/-- Rightmost index of `c` in `s`, if any. -/
def lastIdx (c : Char) (s : Str) : Option Nat := lastIdxAux c s 0 none

/-- `pathlib.PurePath.name`: the final path component (text after the last
    slash). -/
def fileName (p : Str) : Str := ((p.reverse).takeWhile (fun c => c ≠ '/')).reverse

/-- `pathlib.PurePath.suffix`: the extension of the final component,
    including the dot; empty when the name has no internal dot
    (CPython: `i = name.rfind('.')`; return `name[i:]` iff `0 < i < len(name)-1`). -/
def suffix (p : Str) : Str :=
  match lastIdx '.' (fileName p) with
  | some i => if 0 < i ∧ i + 1 < (fileName p).length then (fileName p).drop i else []
  | none => []

/-- `pathlib.PurePath.parent` (for the path shapes the loader uses):
    text before the last slash, `"."` when there is no slash, `"/"` for a
    top-level absolute path. -/
def parent (p : Str) : Str :=
  match lastIdx '/' p with
  | some 0 => str "/"
  | some i => p.take i
  | none => str "."

/-- `pathlib.PurePath.joinpath` with a relative component; an empty
    component is dropped, as `pathlib` does. -/
def joinpath (a b : Str) : Str := if b.isEmpty then a else a ++ '/' :: b

/-- `str(path)[:-len(path.suffix)]` — loader.py line 122 (only evaluated in
    the `.zip` branch, where the suffix is nonempty). -/
def stripSfx (p : Str) : Str := p.take (p.length - (suffix p).length)

/-- `s.startswith(pre)`. -/
def startsWith (s pre : Str) : Bool := pre.isPrefixOf s

/-- `s.endswith(suf)`. -/
def endsWith (s suf : Str) : Bool := suf.isSuffixOf s

/-- `s.split(sep)` for a one-character separator; always returns a
    nonempty list, `[""]` on the empty string, exactly as in Python. -/
def split (sep : Char) : Str → List Str
  | [] => [[]]
  | c :: cs =>
    match split sep cs with
    | [] => [[]]
    | s :: ss => if c = sep then [] :: s :: ss else (c :: s) :: ss

/-- Index of the first occurrence of `pat` in `s`, if any. -/
def findSub : Str → Str → Option Nat
  | [], pat => if pat.isEmpty then some 0 else none
  | c :: rest, pat =>
    if pat.isPrefixOf (c :: rest) then some 0 else (findSub rest pat).map (· + 1)

/-- `urllib.parse.urlparse`, restricted to the pieces the loader reads:
    `(netloc, path)`.  The netloc is the text between `"://"` and the next
    slash; a URL without `"://"` has an empty netloc and is all path. -/
def urlparse (u : Str) : Str × Str :=
  match findSub u (str "://") with
  | some i =>
      let rest := u.drop (i + 3)
      (rest.takeWhile (fun c => c ≠ '/'), rest.dropWhile (fun c => c ≠ '/'))
  | none => ([], u)

/-- Uppercase hexadecimal digit of `n < 16`. -/
def hexDigit (n : Nat) : Char := if n < 10 then Char.ofNat (48 + n) else Char.ofNat (55 + n)

/-- `%XX` escape of one byte. -/
def pctByte (b : Nat) : Str := '%' :: hexDigit (b / 16) :: [hexDigit (b % 16)]

/-- UTF-8 bytes of one character. -/
def utf8Bytes (c : Char) : List Nat :=
  let n := c.toNat
  if n < 128 then [n]
  else if n < 2048 then [192 + n / 64, 128 + n % 64]
  else if n < 65536 then [224 + n / 4096, 128 + (n / 64) % 64, 128 + n % 64]
  else [240 + n / 262144, 128 + (n / 4096) % 64, 128 + (n / 64) % 64, 128 + n % 64]

/-- Characters `urllib.parse.quote` leaves untouched with the default
    `safe='/'`: ASCII alphanumerics, `_.-~`, and the slash. -/
def isSafeChar (c : Char) : Bool :=
  c.isAlphanum || c == '-' || c == '_' || c == '.' || c == '~' || c == '/'

/-- `urllib.parse.quote(s)` (default `safe='/'`). -/
def quote (s : Str) : Str :=
  (s.map (fun c =>
    if isSafeChar c then [c]
    else ((utf8Bytes c).map pctByte).foldr (· ++ ·) [])).foldr (· ++ ·) []

/-- A filesystem entry: a regular file with text content, a directory, or
    a zip archive with its member table. -/
inductive Entry where
  | file (content : Str)
  | dir
  | archive (members : List (Str × Entry))

/-- The filesystem: newest-first association list from paths to entries. -/
abbrev FS := List (Str × Entry)

/-- Path lookup. -/
def fsGet : FS → Str → Option Entry
  | [], _ => none
  | (q, e) :: rest, p => if p = q then some e else fsGet rest p

/-- Write (create or overwrite) an entry. -/
def fsSet (fs : FS) (p : Str) (e : Entry) : FS := (p, e) :: fs

/-- `zipfile.ZipFile.extractall(dir)`: write every member into `dir`,
    later members overwriting earlier ones of the same name. -/
def extractAll (fs : FS) (d : Str) (ms : List (Str × Entry)) : FS :=
  ms.foldl (fun acc m => fsSet acc (joinpath d m.1) m.2) fs

/-- `pathlib.Path.is_file`: the path names an existing regular file (a zip
    archive on disk is a regular file). -/
def is_file (fs : FS) (p : Str) : Bool :=
  match fsGet fs p with
  | some (.file _) => true
  | some (.archive _) => true
  | _ => false

/-- The loaded tabular result. -/
abbrev Table := List (List Str)

/-- The external delimited-text parser (`pandas.read_csv` body): split
    into lines, then into fields at the delimiter. -/
def parse (sep : Char) (content : Str) : Table := (split '\n' content).map (split sep)

/-- Every failure the embedded loader can signal.  `Err.unsupportedExt` is
    the `ValueError("Invalid 'path' extension")` of `validate_local_path`
    and `Err.unsupportedLoad` the `NotImplementedError` of `load` (both are
    the spec's `UnsupportedFormat`); `Err.invalidRequest` is the
    `ValueError` of `__init__`; `Err.remoteDownloadFailed` the
    `RuntimeError` of the dataset branch; `Err.collabError e` an exception
    raised by the competition collaborator, carrying its identity `e`;
    `Err.outOfFuel` is a marker for fuel exhaustion of the fuelled
    dispatcher, shown unreachable by `loadF_total`. -/
inductive Err where
  | invalidRequest
  | pathNotFound
  | unsupportedExt
  | invalidUrlNetloc (netloc : Str)
  | invalidUrlPath (upath : Str)
  | remoteDownloadFailed
  | unsupportedLoad (sfx : Str)
  | fileNotFound (p : Str)
  | isADirectory (p : Str)
  | badZip (p : Str)
  | parseFail (p : Str)
  | collabError (e : Nat)
  | outOfFuel
deriving DecidableEq

/-- Is this error one of the spec's `InvalidUrl` kinds? -/
def Err.isInvalidUrl : Err → Bool
  | .invalidUrlNetloc _ => true
  | .invalidUrlPath _ => true
  | _ => false

/-- Is this error one of the spec's `UnsupportedFormat` kinds? -/
def Err.isUnsupported : Err → Bool
  | .unsupportedExt => true
  | .unsupportedLoad _ => true
  | _ => false

/-- Observable side effects, in program order. -/
inductive Call where
  | auth
  | mkdir (p : Str)
  | compDL (competition fileArg p : Str) (force : Bool)
  | dsDL (dataset fileArg p : Str) (force : Bool)
  | dispatch (p : Str)
deriving DecidableEq

/-- The remote download collaborator (`KaggleApi`).  The competition call
    reports failure by raising (`some e`); the dataset call by returning
    `false`. -/
structure Collab where
  competitionDL : Str → Str → Str → Option Nat
  datasetDL : Str → Str → Str → Bool

/-- `pandas.read_csv(str(path), sep=sep)`: parse an existing regular file,
    `FileNotFoundError` on a missing path, `IsADirectoryError` on a
    directory; handing it raw zip bytes is modelled as a parse failure
    (never reached by any claim). -/
def read_csv (fs : FS) (p : Str) (sep : Char) : Except Err Table :=
  match fsGet fs p with
  | some (.file c) => .ok (parse sep c)
  | some .dir => .error (.isADirectory p)
  | some (.archive _) => .error (.parseFail p)
  | none => .error (.fileNotFound p)

/-- `Data.load` (loader.py lines 98-131), written with explicit fuel so
    that its termination is itself a theorem (`loadF_total`).  Branches in
    source order: `.csv`/`.txt` comma parse, `.tsv` tab parse, `.zip`
    extract-into-parent then recurse on the suffix-stripped path,
    otherwise `NotImplementedError`. -/
def loadF : Nat → FS → Str → Option (Except Err Table)
  | 0, _, _ => none
  | n + 1, fs, p =>
    if suffix p = str ".csv" ∨ suffix p = str ".txt" then
      some (read_csv fs p ',')
    else if suffix p = str ".tsv" then
      some (read_csv fs p '\t')
    else if suffix p = str ".zip" then
      match fsGet fs p with
      | some (.archive ms) => loadF n (extractAll fs (parent p) ms) (stripSfx p)
      | some (.file _) => some (.error (.badZip p))
      | some .dir => some (.error (.isADirectory p))
      | none => some (.error (.fileNotFound p))
    else some (.error (.unsupportedLoad (suffix p)))

/-- `Data.load` with enough fuel (`loadF_total` shows the default is never
    taken). -/
def load (fs : FS) (p : Str) : Except Err Table :=
  (loadF (p.length + 1) fs p).getD (.error .outOfFuel)

/-- `Data.supported_formats` (loader.py line 20). -/
def supported_formats : List Str := [str ".txt", str ".csv"]

/-- Python truthiness of an optional string (used by `all([...])` in the
    constructor): `None` and the empty string are falsy. -/
def truthy : Option Str → Bool
  | none => false
  | some s => !s.isEmpty

/-- `Data.validate_local_path` (loader.py lines 73-95). -/
def validate_local_path (fs : FS) (p : Str) : Except Err Unit :=
  if is_file fs p = false then .error .pathNotFound
  else if suffix p ∉ supported_formats then .error .unsupportedExt
  else .ok ()

/-- The local branch of the constructor: validate, then dispatch. -/
def localLoad (fs : FS) (p : Str) : Except Err Table × List Call :=
  match validate_local_path fs p with
  | .error e => (.error e, [])
  | .ok _ => (load fs p, [.dispatch p])

/-- Lines 158-160 of `Data.kaggle_load`: the competition name is the URL
    path after `"/competitions/"`, with one trailing `"/data"` stripped. -/
def compName (upath : Str) : Str :=
  let n := upath.drop 14
  if endsWith n (str "/data") then n.take (n.length - 5) else n

/-- `Data.kaggle_load` (loader.py lines 134-199).  `fs` is the filesystem
    state in which the final dispatch runs (the collaborator's writes, when
    it succeeds, are part of it); the collaborator's own success or failure
    comes from `c`.  The result pairs the returned table (or error) with
    the trace of effects. -/
def kaggle_load (c : Collab) (fs : FS) (download_path url file : Str) :
    Except Err Table × List Call :=
  let comps := urlparse url
  if comps.1 ≠ str "www.kaggle.com" then
    (.error (.invalidUrlNetloc comps.1), [])
  else if startsWith comps.2 (str "/competitions/") then
    let competition_name := compName comps.2
    let dl := joinpath download_path (quote competition_name)
    match c.competitionDL competition_name file dl with
    | some e =>
        (.error (.collabError e),
         [.mkdir dl, .compDL competition_name file dl true])
    | none =>
        let downloaded := joinpath dl (quote file)
        (load fs downloaded,
         [.mkdir dl, .compDL competition_name file dl true, .dispatch downloaded])
  else if startsWith comps.2 (str "/datasets/") then
    let dataset_id := comps.2.drop 10
    let dataset_name := (split '/' dataset_id).getLastD []
    let dl := joinpath download_path (quote dataset_name)
    if c.datasetDL dataset_id file dl then
      let downloaded := joinpath dl (quote file)
      (load fs downloaded,
       [.mkdir dl, .dsDL dataset_id file dl true, .dispatch downloaded])
    else
      (.error .remoteDownloadFailed, [.mkdir dl, .dsDL dataset_id file dl true])
  else
    (.error (.invalidUrlPath comps.2), [])

/-- `Data.__init__` (loader.py lines 25-70).  The first branch fires when a
    path is given and the three remote fields are not all truthy; the
    second when all three are truthy and no path is given; anything else is
    the `ValueError("Invalid combination of given parameters")`. -/
def init (fs : FS) (c : Collab) (path ku kf dp : Option Str) :
    Except Err Table × List Call :=
  let allR := truthy ku && truthy kf && truthy dp
  match path with
  | some p => if allR then (.error .invalidRequest, []) else localLoad fs p
  | none =>
      if allR then
        let r := kaggle_load c fs (dp.getD []) (ku.getD []) (kf.getD [])
        (r.1, Call.auth :: r.2)
      else (.error .invalidRequest, [])

/-! ### Helper lemmas -/

/-- The final path component is never longer than the path. -/
lemma length_fileName_le (p : Str) : (fileName p).length ≤ p.length := by
  have h := (List.takeWhile_sublist (l := p.reverse) (fun c => c ≠ '/')).length_le
  simpa [fileName] using h

/-- A path whose suffix is `".zip"` has a name with at least a one-character
    stem, the dot, and the three letters: length at least five. -/
lemma suffix_zip_len {p : Str} (h : suffix p = str ".zip") : 5 ≤ (fileName p).length := by
  unfold suffix at h
  split at h
  next i heq =>
    split_ifs at h with hc
    · have hlen : ((fileName p).drop i).length = 4 := by rw [h]; rfl
      rw [List.length_drop] at hlen
      omega
    · exact absurd h (by decide)
  next heq => exact absurd h (by decide)

/-- Stripping the `".zip"` suffix removes exactly four characters. -/
lemma suffix_zip_bounds {p : Str} (h : suffix p = str ".zip") :
    5 ≤ p.length ∧ (stripSfx p).length = p.length - 4 := by
  have h5 : 5 ≤ p.length := le_trans (suffix_zip_len h) (length_fileName_le p)
  refine ⟨h5, ?_⟩
  have h4 : (suffix p).length = 4 := by rw [h]; rfl
  unfold stripSfx
  rw [h4, List.length_take]
  omega

/-- Fuel one more than the path length always suffices for the dispatcher:
    the zip branch strictly shortens the path, so the recursion terminates. -/
lemma loadF_total : ∀ (n : Nat) (fs : FS) (p : Str), p.length < n → (loadF n fs p).isSome = true := by
  intro n
  induction n with
  | zero => intro fs p h; omega
  | succ m ih =>
    intro fs p h
    simp only [loadF]
    split_ifs with h1 h2 h3
    · rfl
    · rfl
    · rcases hg : fsGet fs p with _ | e
      · simp [hg]
      · rcases e with c | _ | ms
        · simp [hg]
        · simp [hg]
        · simp only [hg]
          have hb := suffix_zip_bounds h3
          exact ih _ _ (by omega)
    · rfl

/-- The dispatcher's value does not depend on the fuel, once sufficient. -/
lemma loadF_fuel : ∀ (m n : Nat) (fs : FS) (p : Str),
    p.length < m → p.length < n → loadF m fs p = loadF n fs p := by
  intro m
  induction m with
  | zero => intro n fs p h _; omega
  | succ m' ih =>
    intro n fs p hm hn
    cases n with
    | zero => omega
    | succ n' =>
      simp only [loadF]
      split_ifs with h1 h2 h3
      · rfl
      · rfl
      · rcases hg : fsGet fs p with _ | e
        · simp [hg]
        · rcases e with c | _ | ms
          · simp [hg]
          · simp [hg]
          · simp only [hg]
            have hb := suffix_zip_bounds h3
            exact ih _ _ _ (by omega) (by omega)
      · rfl

/-- The dispatcher never signals an `InvalidUrl`-kind error. -/
lemma loadF_no_invalidUrl : ∀ (n : Nat) (fs : FS) (p : Str) (e : Err),
    loadF n fs p = some (.error e) → e.isInvalidUrl = false := by
  intro n
  induction n with
  | zero => intro fs p e h; exact absurd h (by simp [loadF])
  | succ m ih =>
    intro fs p e h
    simp only [loadF] at h
    split_ifs at h with h1 h2 h3
    · unfold read_csv at h
      rcases hg : fsGet fs p with _ | ent
      · rw [hg] at h
        simp only [Option.some.injEq, Except.error.injEq] at h
        subst h; rfl
      · rcases ent with c | _ | ms <;> rw [hg] at h <;>
          simp only [Option.some.injEq, Except.error.injEq] at h
        all_goals first
        | (subst h; rfl)
        | exact absurd h (by simp)
    · unfold read_csv at h
      rcases hg : fsGet fs p with _ | ent
      · rw [hg] at h
        simp only [Option.some.injEq, Except.error.injEq] at h
        subst h; rfl
      · rcases ent with c | _ | ms <;> rw [hg] at h <;>
          simp only [Option.some.injEq, Except.error.injEq] at h
        all_goals first
        | (subst h; rfl)
        | exact absurd h (by simp)
    · rcases hg : fsGet fs p with _ | ent
      · rw [hg] at h
        simp only [Option.some.injEq, Except.error.injEq] at h
        subst h; rfl
      · rcases ent with c | _ | ms <;> rw [hg] at h
        · simp only [Option.some.injEq, Except.error.injEq] at h
          subst h; rfl
        · simp only [Option.some.injEq, Except.error.injEq] at h
          subst h; rfl
        · exact ih _ _ _ h
    · simp only [Option.some.injEq, Except.error.injEq] at h
      subst h; rfl

/-- `load` agrees with `loadF` at any sufficient fuel. -/
lemma load_eq_loadF {n : Nat} (fs : FS) (p : Str) (h : p.length < n) :
    some (load fs p) = loadF n fs p := by
  have ht := loadF_total (p.length + 1) fs p (by omega)
  rcases ho : loadF (p.length + 1) fs p with _ | r
  · rw [ho] at ht; simp at ht
  · rw [← loadF_fuel (p.length + 1) n fs p (by omega) h, ho]
    simp [load, ho]

/-- `load` never signals an `InvalidUrl`-kind error. -/
lemma load_no_invalidUrl {fs : FS} {p : Str} {e : Err}
    (h : load fs p = .error e) : e.isInvalidUrl = false := by
  have he := load_eq_loadF fs p (Nat.lt_succ_self p.length)
  rw [h] at he
  exact loadF_no_invalidUrl _ _ _ _ he.symm

/-- A list is a prefix, in the boolean sense, of itself followed by
    anything. -/
lemma isPrefixOf_self_append (a b : Str) : a.isPrefixOf (a ++ b) = true := by
  induction a with
  | nil => cases b <;> rfl
  | cons c a' ih => simp [List.isPrefixOf, ih]

/-- A boolean prefix yields the tail it leaves behind. -/
lemma pref_exists {a s : Str} (h : a.isPrefixOf s = true) : ∃ t, s = a ++ t := by
  induction a generalizing s with
  | nil => exact ⟨s, rfl⟩
  | cons c a' ih =>
    cases s with
    | nil => simp [List.isPrefixOf] at h
    | cons d s' =>
      simp only [List.isPrefixOf, Bool.and_eq_true, beq_iff_eq] at h
      obtain ⟨rfl, h2⟩ := h
      obtain ⟨t, rfl⟩ := ih h2
      exact ⟨t, rfl⟩

/-- A list is a suffix, in the boolean sense, of anything followed by
    itself. -/
lemma isSuffixOf_append (a b : Str) : b.isSuffixOf (a ++ b) = true := by
  simp only [List.isSuffixOf, List.reverse_append]
  exact isPrefixOf_self_append _ _

/-- `split` never returns the empty list. -/
lemma split_ne_nil (sep : Char) (s : Str) : split sep s ≠ [] := by
  cases s with
  | nil => simp [split]
  | cons c cs =>
    simp only [split]
    rcases h : split sep cs with _ | ⟨x, xs⟩
    · simp
    · split_ifs <;> simp

/-- Splitting a separator-free string gives that string back, alone. -/
lemma split_no_sep {sep : Char} {s : Str} (h : sep ∉ s) : split sep s = [s] := by
  induction s with
  | nil => rfl
  | cons c cs ih =>
    have hc : c ≠ sep := fun he => h (he ▸ List.mem_cons_self c cs)
    have hcs : sep ∉ cs := fun hm => h (List.mem_cons_of_mem _ hm)
    simp only [split, ih hcs]
    rw [if_neg hc]

/-- Unfolding equation of `split` on a cons cell, with the recursive value
    supplied. -/
lemma split_cons (sep c : Char) (cs x : Str) (xs : List Str)
    (hs : split sep cs = x :: xs) :
    split sep (c :: cs) = if c = sep then [] :: x :: xs else (c :: x) :: xs := by
  simp only [split]
  rw [hs]

/-- A string containing the separator splits into at least two pieces. -/
lemma split_sep_length (sep : Char) (a b : Str) : 2 ≤ (split sep (a ++ sep :: b)).length := by
  induction a with
  | nil =>
    rcases h : split sep b with _ | ⟨x, xs⟩
    · exact absurd h (split_ne_nil sep b)
    · rw [List.nil_append, split_cons sep sep b x xs h, if_pos rfl]
      simp only [List.length_cons]
      omega
  | cons c a' ih =>
    rcases h : split sep (a' ++ sep :: b) with _ | ⟨x, xs⟩
    · exact absurd h (split_ne_nil _ _)
    · rw [h] at ih
      simp only [List.length_cons] at ih
      rw [List.cons_append, split_cons sep c _ x xs h]
      split_ifs <;> simp only [List.length_cons] <;> omega

/-- `getLastD` of a nonempty list ignores the default. -/
lemma getLastD_indep {l : List Str} (h : l ≠ []) (x y : Str) : l.getLastD x = l.getLastD y := by
  cases l with
  | nil => exact absurd rfl h
  | cons a t => rw [List.getLastD_cons, List.getLastD_cons]

/-- The last piece of a split is the text after the last separator. -/
lemma split_getLastD {sep : Char} (a : Str) {b : Str} (h : sep ∉ b) :
    (split sep (a ++ sep :: b)).getLastD [] = b := by
  induction a with
  | nil =>
    rw [List.nil_append, split_cons sep sep b b [] (split_no_sep h), if_pos rfl,
      List.getLastD_cons, List.getLastD_cons, List.getLastD_nil]
  | cons c a' ih =>
    rcases hs : split sep (a' ++ sep :: b) with _ | ⟨x, xs⟩
    · exact absurd hs (split_ne_nil _ _)
    · have hlen := split_sep_length sep a' b
      rw [hs] at hlen ih
      have hxs : xs ≠ [] := by
        cases xs
        · simp at hlen
        · simp
      rw [List.cons_append, split_cons sep c _ x xs hs]
      split_ifs
      · rw [List.getLastD_cons]
        exact ih
      · rw [List.getLastD_cons]
        rw [List.getLastD_cons] at ih
        rw [getLastD_indep hxs _ x]
        exact ih

/-- A URL path below `/datasets/` never matches the `/competitions/`
    prefix test. -/
lemma ds_not_comp (t : Str) : startsWith (str "/datasets/" ++ t) (str "/competitions/") = false := rfl

/-! ### Concrete fixtures used by counterexamples and witnesses -/

/-- A collaborator whose calls all succeed. -/
def cAny : Collab := ⟨fun _ _ _ => none, fun _ _ _ => true⟩

/-- A collaborator whose competition call raises (identity 7) and whose
    dataset call returns a falsy result. -/
def cRaise : Collab := ⟨fun _ _ _ => some 7, fun _ _ _ => false⟩

/-- One local comma-separated file. -/
def fsC1 : FS := [(str "d/a.csv", Entry.file (str "x,y"))]

/-- The downloaded competition file already in place under `/t/x`. -/
def fsC3 : FS := [(str "/t/x/f.csv", Entry.file (str "a,b"))]

/-- A zip archive with no members: its expected extracted file is missing. -/
def fsC4 : FS := [(str "d/a.tsv.zip", Entry.archive [])]

/-- A local file whose extension is upper-case. -/
def fsC10 : FS := [(str "d/a.CSV", Entry.file (str "x"))]

/-! ### C1 -/

/-- C1 counterexample: a constructor call giving a local path together with
    one (but not all) remote fields does not fail with `InvalidRequest`; the
    code takes the local branch, dispatches the path, and succeeds. -/
theorem c1_counterexample :
    init fsC1 cAny (some (str "d/a.csv")) (some (str "u")) none none
      = (Except.ok [[str "x", str "y"]], [Call.dispatch (str "d/a.csv")]) := by
  rfl

/-- C1 (amended): construction fails with `InvalidRequest`, attempting no
    load, exactly outside the two branch guards of `__init__`: when no local
    path is given and the three remote fields are not all truthy, and when a
    local path is given together with all three truthy remote fields.  (A
    local path with some-but-not-all remote fields proceeds as a local
    load.) -/
theorem c1_theorem (fs : FS) (c : Collab) (path ku kf dp : Option Str)
    (h : ¬ ((path.isSome = true ∧ (truthy ku && truthy kf && truthy dp) = false) ∨
            (path = none ∧ (truthy ku && truthy kf && truthy dp) = true))) :
    init fs c path ku kf dp = (.error .invalidRequest, []) := by
  cases path with
  | some p =>
    cases hb : (truthy ku && truthy kf && truthy dp) with
    | false => exact absurd (Or.inl ⟨rfl, hb⟩) h
    | true => simp [init, hb]
  | none =>
    cases hb : (truthy ku && truthy kf && truthy dp) with
    | false => simp [init, hb]
    | true => exact absurd (Or.inr ⟨rfl, hb⟩) h

/-- C1 witness: the all-absent call fails with `InvalidRequest` and an empty
    effect trace. -/
theorem c1_witness : init [] cAny none none none none = (.error .invalidRequest, []) :=
  c1_theorem [] cAny none none none none (by decide)

/-! ### C3 -/

/-- C3 counterexample: the scheme is not examined.  A URL with scheme `http`
    (not `https`) but host `www.kaggle.com` is accepted: the directory is
    created, the download is requested and the file is dispatched, instead
    of failing with `InvalidUrl`. -/
theorem c3_counterexample :
    kaggle_load cAny fsC3 (str "/t") (str "http://www.kaggle.com/competitions/x") (str "f.csv")
      = (Except.ok [[str "a", str "b"]],
         [Call.mkdir (str "/t/x"), Call.compDL (str "x") (str "f.csv") (str "/t/x") true,
          Call.dispatch (str "/t/x/f.csv")]) := by
  rfl

/-- C3 (amended): the URL is accepted only when its host is
    `www.kaggle.com`; any URL with a different host fails with `InvalidUrl`
    before any directory is created or any download is attempted.  The
    scheme is not examined. -/
theorem c3_theorem (c : Collab) (fs : FS) (d url file : Str)
    (h : (urlparse url).1 ≠ str "www.kaggle.com") :
    kaggle_load c fs d url file = (.error (.invalidUrlNetloc (urlparse url).1), []) := by
  simp [kaggle_load, h]

/-- C3 witness: a non-kaggle host fails with `InvalidUrl` and an empty
    effect trace. -/
theorem c3_witness :
    kaggle_load cAny [] (str "/t") (str "https://example.com/datasets/x") (str "f")
      = (.error (.invalidUrlNetloc (str "example.com")), []) :=
  c3_theorem cAny [] (str "/t") (str "https://example.com/datasets/x") (str "f") (by decide)

/-! ### C4 -/

/-- C4 counterexample: when the extracted path does not exist the dispatcher
    does not raise `UnsupportedFormat`; the recursive call reaches the
    parser, which fails with a file-not-found error. -/
theorem c4_counterexample :
    load fsC4 (str "d/a.tsv.zip") = Except.error (Err.fileNotFound (str "d/a.tsv")) ∧
    Err.isUnsupported (Err.fileNotFound (str "d/a.tsv")) = false :=
  ⟨rfl, rfl⟩

/-- C4 (amended): the dispatcher terminates on every input path — each
    `.zip` step strictly shortens the path, so fuel exceeding the path
    length always suffices and yields the dispatcher's value.  (No explicit
    recursion-depth cap exists, and a missing extracted path surfaces as the
    parser's file-not-found error, not `UnsupportedFormat`.) -/
theorem c4_theorem (fs : FS) (p : Str) (n : Nat) (h : p.length < n) :
    (loadF n fs p).isSome = true ∧ loadF n fs p = some (load fs p) :=
  ⟨loadF_total n fs p h, (load_eq_loadF fs p h).symm⟩

/-- C4 witness: fuel six settles a length-five path. -/
theorem c4_witness :
    (loadF 6 [] (str "a.csv")).isSome = true ∧
    loadF 6 [] (str "a.csv") = some (load [] (str "a.csv")) :=
  c4_theorem [] (str "a.csv") 6 (by decide)

/-! ### C8 -/

/-- C8: a local-mode request whose path names no existing regular file — a
    nonexistent path or a directory — fails with `PathNotFound` before any
    parsing or extraction (empty effect trace). -/
theorem c8_theorem (fs : FS) (c : Collab) (p : Str) (ku kf dp : Option Str)
    (hmode : (truthy ku && truthy kf && truthy dp) = false)
    (hfile : fsGet fs p = none ∨ fsGet fs p = some .dir) :
    init fs c (some p) ku kf dp = (.error .pathNotFound, []) := by
  have hisf : is_file fs p = false := by
    rcases hfile with h | h <;> simp [is_file, h]
  simp [init, hmode, localLoad, validate_local_path, hisf]

/-- C8 witness: a nonexistent path fails with `PathNotFound`. -/
theorem c8_witness :
    init [] cAny (some (str "nope.csv")) none none none = (.error .pathNotFound, []) :=
  c8_theorem [] cAny (str "nope.csv") none none none (by decide) (Or.inl rfl)

/-! ### C10 -/

/-- C10: the extension check is case-sensitive — a local-mode request on an
    existing file whose suffix is an upper- or mixed-case variant of a
    supported extension fails with `UnsupportedFormat`. -/
theorem c10_theorem (fs : FS) (c : Collab) (p : Str) (ku kf dp : Option Str)
    (hmode : (truthy ku && truthy kf && truthy dp) = false)
    (hfile : is_file fs p = true)
    (hlow : List.map Char.toLower (suffix p) ∈ supported_formats)
    (hne : suffix p ≠ List.map Char.toLower (suffix p)) :
    init fs c (some p) ku kf dp = (.error .unsupportedExt, []) := by
  have hmem : suffix p ∉ supported_formats := by
    intro hm
    simp only [supported_formats, List.mem_cons, List.not_mem_nil, or_false] at hm
    rcases hm with h1 | h1 <;> rw [h1] at hne <;> exact hne (by decide)
  simp [init, hmode, localLoad, validate_local_path, hfile, hmem]

/-- C10 witness: an existing `.CSV` file is rejected with
    `UnsupportedFormat` even though `.csv` is supported. -/
theorem c10_witness :
    init fsC10 cAny (some (str "d/a.CSV")) none none none = (.error .unsupportedExt, []) :=
  c10_theorem fsC10 cAny (str "d/a.CSV") none none none (by decide) (by decide)
    (by decide) (by decide)

/-! ### C2 -/

/-- C2 counterexample: an error raised by the competition-kind collaborator
    propagates as that collaborator's own error, not as the
    `RemoteDownloadFailed` kind — the two branches are not normalized. -/
theorem c2_counterexample :
    (kaggle_load cRaise [] (str "/t") (str "https://www.kaggle.com/competitions/x") (str "f")).1
      = Except.error (Err.collabError 7) ∧
    Err.collabError 7 ≠ Err.remoteDownloadFailed :=
  ⟨rfl, by decide⟩

/-- C2 (amended): a falsy result of the dataset-kind collaborator is
    converted to `RemoteDownloadFailed`, while an error raised by the
    competition-kind collaborator propagates unchanged as that error (never
    equal to `RemoteDownloadFailed`): the two failure channels are not
    normalized to one kind. -/
theorem c2_theorem (c : Collab) (fs : FS) (d url file upath : Str)
    (hu : urlparse url = (str "www.kaggle.com", upath)) :
    (startsWith upath (str "/datasets/") = true →
       c.datasetDL (upath.drop 10) file
         (joinpath d (quote ((split '/' (upath.drop 10)).getLastD []))) = false →
       (kaggle_load c fs d url file).1 = .error .remoteDownloadFailed) ∧
    (startsWith upath (str "/competitions/") = true →
       ∀ e, c.competitionDL (compName upath) file (joinpath d (quote (compName upath))) = some e →
         (kaggle_load c fs d url file).1 = .error (.collabError e) ∧
         Err.collabError e ≠ Err.remoteDownloadFailed) := by
  constructor
  · intro hds hfail
    obtain ⟨t, rfl⟩ := pref_exists (a := str "/datasets/") hds
    have hnc : startsWith (str "/datasets/" ++ t) (str "/competitions/") = false :=
      ds_not_comp t
    simp at hfail
    simp [kaggle_load, hu, hnc, hds, hfail]
  · intro hcp e hraise
    simp [kaggle_load, hu, hcp, hraise]

/-- C2 witness: both branches at concrete inputs — the dataset branch with a
    falsy collaborator yields `RemoteDownloadFailed`; the competition branch
    with a raising collaborator yields that collaborator's error, which is
    not `RemoteDownloadFailed`. -/
theorem c2_witness :
    ((kaggle_load cRaise [] (str "/t") (str "https://www.kaggle.com/datasets/o/n") (str "f")).1
       = Except.error Err.remoteDownloadFailed) ∧
    ((kaggle_load cRaise [] (str "/t") (str "https://www.kaggle.com/competitions/x") (str "f")).1
       = Except.error (Err.collabError 7) ∧
     Err.collabError 7 ≠ Err.remoteDownloadFailed) := by
  constructor
  · exact (c2_theorem cRaise [] (str "/t")
      (str "https://www.kaggle.com/datasets/o/n") (str "f") (str "/datasets/o/n")
      (by decide)).1 (by decide) (by decide)
  · exact (c2_theorem cRaise [] (str "/t")
      (str "https://www.kaggle.com/competitions/x") (str "f") (str "/competitions/x")
      (by decide)).2 (by decide) 7 (by decide)

/-! ### C5 -/

/-- C5: a `.zip` path is handled by extracting every member into the
    archive's parent directory and re-dispatching on the `.zip`-stripped
    path; when that stripped path names a `.tsv` file in the extracted
    state, the result is exactly the tab-delimited parse of that inner
    file. -/
theorem c5_theorem (fs : FS) (p : Str) (ms : List (Str × Entry)) (tc : Str)
    (hz : suffix p = str ".zip")
    (hm : fsGet fs p = some (.archive ms))
    (ht : suffix (stripSfx p) = str ".tsv")
    (hc : fsGet (extractAll fs (parent p) ms) (stripSfx p) = some (.file tc)) :
    load fs p = Except.ok (parse '\t' tc) ∧
    load fs p = load (extractAll fs (parent p) ms) (stripSfx p) := by
  have hb := suffix_zip_bounds hz
  have h1 : ¬(suffix p = str ".csv" ∨ suffix p = str ".txt") := by rw [hz]; decide
  have h2 : suffix p ≠ str ".tsv" := by rw [hz]; decide
  have hstep : some (load fs p)
      = loadF p.length (extractAll fs (parent p) ms) (stripSfx p) := by
    rw [load_eq_loadF fs p (Nat.lt_succ_self _)]
    simp only [loadF]
    rw [if_neg h1, if_neg h2, if_pos hz, hm]
  have hfuel : loadF p.length (extractAll fs (parent p) ms) (stripSfx p)
      = some (load (extractAll fs (parent p) ms) (stripSfx p)) :=
    (load_eq_loadF _ _ (by omega)).symm
  have hrec : load fs p = load (extractAll fs (parent p) ms) (stripSfx p) :=
    Option.some.inj (hstep.trans hfuel)
  refine ⟨?_, hrec⟩
  rw [hrec]
  have h1' : ¬(suffix (stripSfx p) = str ".csv" ∨ suffix (stripSfx p) = str ".txt") := by
    rw [ht]; decide
  have hv : some (load (extractAll fs (parent p) ms) (stripSfx p))
      = some (Except.ok (parse '\t' tc)) := by
    rw [load_eq_loadF _ _ (Nat.lt_succ_self _)]
    simp only [loadF]
    rw [if_neg h1', if_pos ht]
    unfold read_csv
    rw [hc]
  exact Option.some.inj hv

/-- A zip archive holding the same-named `.tsv` file. -/
def fsC5 : FS := [(str "d/a.tsv.zip", Entry.archive [(str "a.tsv", Entry.file (str "x\ty"))])]

/-- C5 witness: extracting `d/a.tsv.zip` and re-dispatching on `d/a.tsv`
    yields the tab-delimited parse of the inner file. -/
theorem c5_witness :
    load fsC5 (str "d/a.tsv.zip") = Except.ok (parse '\t' (str "x\ty")) ∧
    load fsC5 (str "d/a.tsv.zip")
      = load (extractAll fsC5 (parent (str "d/a.tsv.zip"))
               [(str "a.tsv", Entry.file (str "x\ty"))])
             (stripSfx (str "d/a.tsv.zip")) :=
  c5_theorem fsC5 (str "d/a.tsv.zip") [(str "a.tsv", Entry.file (str "x\ty"))]
    (str "x\ty") (by decide) rfl (by decide) rfl

/-! ### C6 -/

/-- C6: for a dataset URL path `/datasets/<owner>/<name>` the destination
    directory joins the download directory with the percent-encoding of
    `<name>` alone, the collaborator receives the full `<owner>/<name>`
    identifier with overwrite set, and the dispatcher receives the
    destination directory joined with the percent-encoded file name. -/
theorem c6_theorem (c : Collab) (fs : FS) (d url file owner name : Str)
    (hu : urlparse url = (str "www.kaggle.com", str "/datasets/" ++ owner ++ '/' :: name))
    (hn : '/' ∉ name) :
    kaggle_load c fs d url file =
      (if c.datasetDL (owner ++ '/' :: name) file (joinpath d (quote name)) then
        (load fs (joinpath (joinpath d (quote name)) (quote file)),
         [.mkdir (joinpath d (quote name)),
          .dsDL (owner ++ '/' :: name) file (joinpath d (quote name)) true,
          .dispatch (joinpath (joinpath d (quote name)) (quote file))])
       else
        (.error .remoteDownloadFailed,
         [.mkdir (joinpath d (quote name)),
          .dsDL (owner ++ '/' :: name) file (joinpath d (quote name)) true])) := by
  have hid : (str "/datasets/" ++ (owner ++ '/' :: name)).drop 10 = owner ++ '/' :: name :=
    List.drop_left' (by decide)
  have hname : (split '/' (owner ++ '/' :: name)).getLastD [] = name := split_getLastD owner hn
  have hds : startsWith (str "/datasets/" ++ (owner ++ '/' :: name)) (str "/datasets/") = true :=
    isPrefixOf_self_append _ _
  have hnc : startsWith (str "/datasets/" ++ (owner ++ '/' :: name)) (str "/competitions/")
      = false := ds_not_comp _
  simp only [List.getLastD_eq_getLast?] at hname
  simp [kaggle_load, hu, hds, hnc, hid, hname]

/-- Collaborator writes for the C6 witness already in place. -/
def fsC6 : FS := [(str "/t/n/f.csv", Entry.file (str "a,b"))]

/-- C6 witness: dataset URL `/datasets/o/n` with file `f.csv` produces
    destination `/t/n`, identifier `o/n`, overwrite, and dispatch of
    `/t/n/f.csv`. -/
theorem c6_witness :
    kaggle_load cAny fsC6 (str "/t") (str "https://www.kaggle.com/datasets/o/n") (str "f.csv")
      = (if cAny.datasetDL (str "o" ++ '/' :: str "n") (str "f.csv")
            (joinpath (str "/t") (quote (str "n"))) then
          (load fsC6 (joinpath (joinpath (str "/t") (quote (str "n"))) (quote (str "f.csv"))),
           [.mkdir (joinpath (str "/t") (quote (str "n"))),
            .dsDL (str "o" ++ '/' :: str "n") (str "f.csv")
              (joinpath (str "/t") (quote (str "n"))) true,
            .dispatch (joinpath (joinpath (str "/t") (quote (str "n"))) (quote (str "f.csv")))])
         else
          (.error .remoteDownloadFailed,
           [.mkdir (joinpath (str "/t") (quote (str "n"))),
            .dsDL (str "o" ++ '/' :: str "n") (str "f.csv")
              (joinpath (str "/t") (quote (str "n"))) true])) :=
  c6_theorem cAny fsC6 (str "/t") (str "https://www.kaggle.com/datasets/o/n") (str "f.csv")
    (str "o") (str "n") (by decide) (by decide)

/-! ### C7 -/

/-- C7 counterexample: at competition name `n = "x/data"` the two URL paths
    `/competitions/x/data/data` and `/competitions/x/data` normalize to the
    different resource names `x/data` and `x`, and the two loads perform
    different effects. -/
theorem c7_counterexample :
    compName (str "/competitions/x/data/data") = str "x/data" ∧
    compName (str "/competitions/x/data") = str "x" ∧
    (kaggle_load cAny [] (str "/t")
        (str "https://www.kaggle.com/competitions/x/data/data") (str "f")).2
      ≠ (kaggle_load cAny [] (str "/t")
        (str "https://www.kaggle.com/competitions/x/data") (str "f")).2 :=
  ⟨rfl, rfl, by decide⟩

/-- C7 (amended): for every competition name `n` that does not itself end
    in `/data`, the URL path `/competitions/n/data` is normalized to the
    same resource name as `/competitions/n`, and the two remote loads
    coincide entirely. -/
theorem c7_theorem (c : Collab) (fs : FS) (d file url1 url2 n : Str)
    (hu1 : urlparse url1 = (str "www.kaggle.com", str "/competitions/" ++ n ++ str "/data"))
    (hu2 : urlparse url2 = (str "www.kaggle.com", str "/competitions/" ++ n))
    (hnd : endsWith n (str "/data") = false) :
    compName (str "/competitions/" ++ n ++ str "/data")
      = compName (str "/competitions/" ++ n) ∧
    kaggle_load c fs d url1 file = kaggle_load c fs d url2 file := by
  have hc1 : compName (str "/competitions/" ++ (n ++ str "/data")) = n := by
    simp only [compName]
    rw [List.drop_left' (by decide)]
    rw [show endsWith (n ++ str "/data") (str "/data") = true from isSuffixOf_append n _]
    rw [if_pos rfl, List.length_append]
    rw [show (str "/data").length = 5 from rfl]
    rw [List.take_left' (by omega)]
  have hc2 : compName (str "/competitions/" ++ n) = n := by
    simp only [compName]
    rw [List.drop_left' (by decide)]
    rw [hnd, if_neg (by decide)]
  have hsw1 : startsWith (str "/competitions/" ++ (n ++ str "/data")) (str "/competitions/")
      = true := isPrefixOf_self_append _ _
  have hsw2 : startsWith (str "/competitions/" ++ n) (str "/competitions/") = true :=
    isPrefixOf_self_append _ _
  refine ⟨by rw [List.append_assoc]; exact hc1.trans hc2.symm, ?_⟩
  simp [kaggle_load, hu1, hu2, hsw1, hsw2, hc1, hc2]

/-- C7 witness: at `n = "abc"` the `/data`-suffixed and plain competition
    URLs yield the same resource name and identical loads. -/
theorem c7_witness :
    compName (str "/competitions/" ++ str "abc" ++ str "/data")
      = compName (str "/competitions/" ++ str "abc") ∧
    kaggle_load cAny [] (str "/t")
        (str "https://www.kaggle.com/competitions/abc/data") (str "f")
      = kaggle_load cAny [] (str "/t")
        (str "https://www.kaggle.com/competitions/abc") (str "f") :=
  c7_theorem cAny [] (str "/t") (str "f")
    (str "https://www.kaggle.com/competitions/abc/data")
    (str "https://www.kaggle.com/competitions/abc")
    (str "abc") (by decide) (by decide) (by decide)

/-! ### C9 -/

/-- C9: with host `www.kaggle.com` and a path starting `/datasets/`, the
    remote fetcher never fails with an `InvalidUrl` kind, however many
    segments follow; a single-segment path `/datasets/x` uses identifier
    `x` and destination subdirectory `x`; the bare path `/datasets/` uses
    the empty identifier and the download directory itself. -/
theorem c9_theorem :
    (∀ (c : Collab) (fs : FS) (d url file upath : Str) (e : Err),
       urlparse url = (str "www.kaggle.com", upath) →
       startsWith upath (str "/datasets/") = true →
       (kaggle_load c fs d url file).1 = .error e → e.isInvalidUrl = false) ∧
    (∀ (c : Collab) (fs : FS) (d url file x : Str),
       urlparse url = (str "www.kaggle.com", str "/datasets/" ++ x) → '/' ∉ x →
       kaggle_load c fs d url file =
         (if c.datasetDL x file (joinpath d (quote x)) then
            (load fs (joinpath (joinpath d (quote x)) (quote file)),
             [.mkdir (joinpath d (quote x)), .dsDL x file (joinpath d (quote x)) true,
              .dispatch (joinpath (joinpath d (quote x)) (quote file))])
          else
            (.error .remoteDownloadFailed,
             [.mkdir (joinpath d (quote x)), .dsDL x file (joinpath d (quote x)) true]))) ∧
    (∀ (c : Collab) (fs : FS) (d url file : Str),
       urlparse url = (str "www.kaggle.com", str "/datasets/") →
       kaggle_load c fs d url file =
         (if c.datasetDL [] file d then
            (load fs (joinpath d (quote file)),
             [.mkdir d, .dsDL [] file d true, .dispatch (joinpath d (quote file))])
          else
            (.error .remoteDownloadFailed, [.mkdir d, .dsDL [] file d true]))) := by
  refine ⟨?_, ?_, ?_⟩
  · intro c fs d url file upath e hu hds hres
    obtain ⟨t, rfl⟩ := pref_exists (a := str "/datasets/") hds
    have hnc := ds_not_comp t
    simp [kaggle_load, hu, hds, hnc] at hres
    split at hres
    · exact load_no_invalidUrl hres
    · simp at hres
      subst hres
      rfl
  · intro c fs d url file x hu hx
    have hid : (str "/datasets/" ++ x).drop 10 = x := List.drop_left' (by decide)
    have hname : (split '/' x).getLastD [] = x := by rw [split_no_sep hx]; rfl
    have hds : startsWith (str "/datasets/" ++ x) (str "/datasets/") = true :=
      isPrefixOf_self_append _ _
    have hnc := ds_not_comp x
    simp only [List.getLastD_eq_getLast?] at hname
    simp [kaggle_load, hu, hds, hnc, hid, hname]
  · intro c fs d url file hu
    have hds : startsWith (str "/datasets/") (str "/datasets/") = true := by decide
    have hnc : startsWith (str "/datasets/") (str "/competitions/") = false := by decide
    have hid : (str "/datasets/").drop 10 = ([] : Str) := by decide
    have hname : (split '/' ([] : Str)).getLastD [] = ([] : Str) := rfl
    have hq : quote ([] : Str) = [] := rfl
    have hj : joinpath d [] = d := rfl
    simp only [List.getLastD_eq_getLast?] at hname
    simp [kaggle_load, hu, hds, hnc, hid, hname, hq, hj]

/-- C9 witness: a falsy dataset download at `/datasets/x` yields
    `RemoteDownloadFailed` (not an `InvalidUrl` kind); `/datasets/x` routes
    with identifier and subdirectory `x`; bare `/datasets/` routes with the
    empty identifier into the download directory itself. -/
theorem c9_witness :
    Err.isInvalidUrl Err.remoteDownloadFailed = false ∧
    (kaggle_load cAny [] (str "/t") (str "https://www.kaggle.com/datasets/x") (str "f")
      = (if cAny.datasetDL (str "x") (str "f") (joinpath (str "/t") (quote (str "x"))) then
          (load [] (joinpath (joinpath (str "/t") (quote (str "x"))) (quote (str "f"))),
           [.mkdir (joinpath (str "/t") (quote (str "x"))),
            .dsDL (str "x") (str "f") (joinpath (str "/t") (quote (str "x"))) true,
            .dispatch (joinpath (joinpath (str "/t") (quote (str "x"))) (quote (str "f")))])
         else
          (.error .remoteDownloadFailed,
           [.mkdir (joinpath (str "/t") (quote (str "x"))),
            .dsDL (str "x") (str "f") (joinpath (str "/t") (quote (str "x"))) true]))) ∧
    (kaggle_load cAny [] (str "/t") (str "https://www.kaggle.com/datasets/") (str "f")
      = (if cAny.datasetDL [] (str "f") (str "/t") then
          (load [] (joinpath (str "/t") (quote (str "f"))),
           [.mkdir (str "/t"), .dsDL [] (str "f") (str "/t") true,
            .dispatch (joinpath (str "/t") (quote (str "f")))])
         else
          (.error .remoteDownloadFailed,
           [.mkdir (str "/t"), .dsDL [] (str "f") (str "/t") true]))) := by
  refine ⟨?_, ?_, ?_⟩
  · exact c9_theorem.1 cRaise [] (str "/t") (str "https://www.kaggle.com/datasets/x")
      (str "f") (str "/datasets/x") Err.remoteDownloadFailed (by decide) (by decide) rfl
  · exact c9_theorem.2.1 cAny [] (str "/t") (str "https://www.kaggle.com/datasets/x")
      (str "f") (str "x") (by decide) (by decide)
  · exact c9_theorem.2.2 cAny [] (str "/t") (str "https://www.kaggle.com/datasets/")
      (str "f") (by decide)
